import Mathlib

/-
Verification of the tracking subsystem of the Sales-Process-Automation
repository: tracking-identifier generation (Task/Email_Campaign_Automation.py),
and the enhanced tracking server (Task/tracking_server.py): identifier and URL
validation, event ingestion, the durable per-campaign store update, the stats
aggregation, and the send-loop sleep schedule.

The embedding is shallow: Python dicts become association lists, the JSON file
of one campaign becomes a `FileContent` value, the file system becomes a map
from campaign id to `FileContent`, and timestamps / random nonces / client
metadata are passed in explicitly.
-/

set_option autoImplicit false

namespace SalesTracking

/-- Python `str.split('_')`, on the character list of the string: splits on
every underscore, keeping empty segments, and always returns at least one
segment (`''.split('_') == ['']`). -/
def splitU : List Char → List (List Char)
  | [] => [[]]
  | c :: cs =>
    match splitU cs with
    | [] => [[]]
    | seg :: rest => if c = '_' then [] :: seg :: rest else (c :: seg) :: rest

/-- Python's `$` regex anchor also matches just before a single trailing
newline, so `re.match(r'^...$', s)` accepts `s` with one final `'\n'`
stripped. -/
def strip_trailing_newline (l : List Char) : List Char :=
  if l.getLast? = some '\n' then l.dropLast else l

/-- The core of `VALID_TRACKING_ID_PATTERN = re.compile(r'^[a-zA-Z0-9]+_[a-zA-Z0-9]+$')`
(tracking_server.py line 42): exactly one underscore separating two nonempty
alphanumeric segments. -/
def tracking_id_core (l : List Char) : Bool :=
  match splitU l with
  | [a, b] => !a.isEmpty && !b.isEmpty && a.all Char.isAlphanum && b.all Char.isAlphanum
  | _ => false

/-- `is_valid_tracking_id` (tracking_server.py lines 48-50):
`bool(VALID_TRACKING_ID_PATTERN.match(tracking_id))`. -/
def is_valid_tracking_id (s : String) : Bool :=
  tracking_id_core (strip_trailing_newline s.toList)

/-- The `^[a-zA-Z0-9]+$` check of `campaign_stats` (tracking_server.py line 142). -/
def is_valid_campaign_id (s : String) : Bool :=
  let l := strip_trailing_newline s.toList
  !l.isEmpty && l.all Char.isAlphanum

/-- `_generate_tracking_id` (Email_Campaign_Automation.py lines 126-128):
`f"{self.campaign_id}_{lead_id}_{uuid.uuid4().hex[:8]}"`; the random nonce is
passed in explicitly. -/
def generate_tracking_id (campaignId leadId nonce : String) : String :=
  campaignId ++ "_" ++ leadId ++ "_" ++ nonce

/-- `tracking_id.split('_')[0]` (tracking_server.py line 181); `str.split`
always returns a nonempty list, so the `[0]` never fails. -/
def parse_campaign_id (s : String) : String :=
  String.mk ((splitU s.toList).headD [])

/-- Characters allowed after the first character of a URL scheme
(`urllib.parse.scheme_chars`: letters, digits, `+`, `-`, `.`). -/
def isSchemeChar (c : Char) : Bool :=
  c.isAlphanum || c = '+' || c = '-' || c = '.'

/-- Split a character list at its first `':'`, returning the parts before and
after it, or `none` when there is no colon (`url.find(':')`). -/
def splitOnColon : List Char → Option (List Char × List Char)
  | [] => none
  | c :: cs =>
    if c = ':' then some ([], cs)
    else
      match splitOnColon cs with
      | some (a, b) => some (c :: a, b)
      | none => none

/-- The scheme/netloc extraction of `urllib.parse.urlsplit`: tab, CR and LF
are removed anywhere; a scheme is recognized before the first `':'` when it
starts with an ASCII letter and continues with scheme characters, and is
lowercased; the netloc is what follows a leading `'//'` up to the next
`'/'`, `'?'` or `'#'`. -/
def urlSchemeNetloc (s : String) : List Char × List Char :=
  let l := s.toList.filter (fun c => !(c = '\t' || c = '\r' || c = '\n'))
  let p :=
    match splitOnColon l with
    | some (pre, post) =>
      match pre with
      | [] => (([] : List Char), l)
      | c0 :: pre' =>
        if c0.isAlpha && pre'.all isSchemeChar
        then ((c0 :: pre').map Char.toLower, post)
        else (([] : List Char), l)
    | none => (([] : List Char), l)
  match p.2 with
  | '/' :: '/' :: r =>
    (p.1, r.takeWhile (fun c => !(c = '/' || c = '?' || c = '#')))
  | _ => (p.1, [])

/-- `is_valid_url` (tracking_server.py lines 53-59): `urlparse` succeeds (an
unbalanced `'['`/`']'` in the netloc raises, caught by the bare `except`) and
`result.scheme in ['http', 'https']` and `result.netloc` is nonempty. -/
def is_valid_url (s : String) : Bool :=
  let p := urlSchemeNetloc s
  if (p.2.contains '[') != (p.2.contains ']') then false
  else (p.1 == "http".toList || p.1 == "https".toList) && !p.2.isEmpty

/-- The two event kinds the server records (`'opened'` from the pixel route,
`'clicked'` from the click route). -/
inductive Action
  | opened
  | clicked
deriving DecidableEq, Repr

/-- One element of an entry's `"events"` list (tracking_server.py lines
211-220); the `url` field is present only for click events with a truthy URL. -/
structure EventRecord where
  act : Action
  timestamp : String
  ip : Option String
  user_agent : Option String
  url : Option String
deriving DecidableEq, Repr

/-- One value of the per-campaign JSON mapping. A JSON object may lack any of
these keys, so every field is an `Option`; `none` models an absent key. The
campaign-side seed entries (Email_Campaign_Automation.py lines 178-188) carry
explicit `opened: False` / `clicked: False`, while the server's shell entries
carry neither key. -/
structure RecipientEntry where
  first_seen : Option String := none
  sent_time : Option String := none
  opened : Option Bool := none
  clicked : Option Bool := none
  last_activity : Option String := none
  events : List EventRecord := []
deriving DecidableEq, Repr

/-- The decoded content of one campaign JSON file: a Python dict in insertion
order, keyed by tracking identifier. -/
abbrev Store := List (String × RecipientEntry)

/-- Python dict lookup `tracking_data[tracking_id]` / `tracking_id in tracking_data`. -/
def findEntry : Store → String → Option RecipientEntry
  | [], _ => none
  | (k, v) :: rest, id => if k = id then some v else findEntry rest id

/-- Python dict assignment `tracking_data[tracking_id] = e`: replaces the
existing entry in place, or appends a new key at the end. -/
def setEntry : Store → String → RecipientEntry → Store
  | [], id, e => [(id, e)]
  | (k, v) :: rest, id, e =>
    if k = id then (k, e) :: rest else (k, v) :: setEntry rest id e

/-- The shell entry created when an event arrives for an unknown identifier
(tracking_server.py lines 204-208): only `first_seen` and an empty `events`
list; no `opened`, `clicked`, `sent_time` or `last_activity` keys. -/
def shell_entry (now : String) : RecipientEntry :=
  { first_seen := some now, events := [] }

/-- The in-memory mutation of `update_tracking_data` (tracking_server.py lines
203-225) on the decoded store of one campaign file: create a shell entry if the
identifier is unknown, append the new event, set the flag named by the action
to `True`, and update `last_activity`. -/
def update_store (id : String) (a : Action) (ip ua url : Option String)
    (now : String) (s : Store) : Store :=
  let base :=
    match findEntry s id with
    | some e => e
    | none => shell_entry now
  let ev : EventRecord :=
    { act := a, timestamp := now, ip := ip, user_agent := ua,
      url :=
        match a, url with
        | .clicked, some u => if u = "" then none else some u
        | _, _ => none }
  setEntry s id
    { base with
      events := base.events ++ [ev],
      opened := if a = .opened then some true else base.opened,
      clicked := if a = .clicked then some true else base.clicked,
      last_activity := some now }

/-- The state of one campaign's backing file: missing, unparseable JSON, or a
decoded store. -/
inductive FileContent
  | absent
  | corrupt
  | good (s : Store)
deriving DecidableEq, Repr

/-- One load-modify-save cycle of `update_tracking_data` on a single campaign
file, i.e. the body of the `with file_lock:` block (tracking_server.py lines
190-231): an absent file is first created holding `{}`; on a corrupt file
`json.load` raises, the surrounding `except Exception` logs and returns, so the
file is left untouched and the event is dropped. -/
def update_file (id : String) (a : Action) (ip ua url : Option String)
    (now : String) : FileContent → FileContent
  | .absent => .good (update_store id a ip ua url now [])
  | .corrupt => .corrupt
  | .good s => .good (update_store id a ip ua url now s)

/-- The tracking-data directory: one backing file per campaign id
(`campaign_data_{campaign_id}.json`). -/
abbrev FS := String → FileContent

/-- `update_tracking_data` (tracking_server.py lines 177-234): routes to the
file named by the identifier's first `'_'`-delimited segment (lines 181, 186)
and performs one locked load-modify-save cycle on that file. -/
def update_tracking_data (id : String) (a : Action) (ip ua url : Option String)
    (now : String) (fs : FS) : FS :=
  let cid := parse_campaign_id id
  Function.update fs cid (update_file id a ip ua url now (fs cid))

/-- The JSON body produced by `campaign_stats` (tracking_server.py lines
160-168). -/
structure Stats where
  campaign_id : String
  total_recipients : ℕ
  total_opens : ℕ
  total_clicks : ℕ
  open_rate : ℚ
  click_rate : ℚ
  click_to_open_rate : ℚ
deriving DecidableEq, Repr

/-- The observable HTTP outcomes of the tracking routes. -/
inductive Response
  | badRequest
  | notFound
  | serverError
  | pixel
  | redirect (url : String)
  | statsJson (st : Stats)
deriving DecidableEq, Repr

/-- Round-half-to-even of a rational to an integer: the rounding rule of
Python's built-in `round`, applied to the exact value. -/
def roundHalfEven (q : ℚ) : ℤ :=
  if q - ⌊q⌋ < 1 / 2 then ⌊q⌋
  else if 1 / 2 < q - ⌊q⌋ then ⌊q⌋ + 1
  else if ⌊q⌋ % 2 = 0 then ⌊q⌋ else ⌊q⌋ + 1

/-- Python `round(x, 2)` modeled on exact rationals. -/
def round2 (q : ℚ) : ℚ :=
  (roundHalfEven (q * 100) : ℚ) / 100

/-- The aggregation of `campaign_stats` (tracking_server.py lines 155-168):
`len(tracking_data)`, `sum(1 for data in ... if data.get('opened', False))`,
likewise for `'clicked'`, and the three rounded rates with their zero
guards. -/
def computeStats (cid : String) (s : Store) : Stats :=
  let total := s.length
  let opens := List.countP (fun e => e.opened.getD false) (s.map Prod.snd)
  let clicks := List.countP (fun e => e.clicked.getD false) (s.map Prod.snd)
  { campaign_id := cid
    total_recipients := total
    total_opens := opens
    total_clicks := clicks
    open_rate := if total > 0 then round2 ((opens : ℚ) / (total : ℚ) * 100) else 0
    click_rate := if total > 0 then round2 ((clicks : ℚ) / (total : ℚ) * 100) else 0
    click_to_open_rate := if opens > 0 then round2 ((clicks : ℚ) / (opens : ℚ) * 100) else 0 }

/-- The `/stats/<campaign_id>` route (tracking_server.py lines 138-174):
400 on a malformed campaign id, 404 when the file is absent, 500 when
`json.load` raises (caught by the broad `except`), else the stats JSON. -/
def campaign_stats (cid : String) (fs : FS) : Response :=
  if is_valid_campaign_id cid then
    match fs cid with
    | .absent => .notFound
    | .corrupt => .serverError
    | .good s => .statsJson (computeStats cid s)
  else .badRequest

/-- `DEFAULT_REDIRECT_URL` (tracking_server.py line 40). -/
def DEFAULT_REDIRECT_URL : String := "https://www.example.com"

/-- URL resolution of the click route (tracking_server.py lines 117-123):
absent query parameter defaults to `DEFAULT_REDIRECT_URL`, and an invalid URL
is replaced by it. -/
def resolved_click_url (p : Option String) : String :=
  let url := p.getD DEFAULT_REDIRECT_URL
  if is_valid_url url then url else DEFAULT_REDIRECT_URL

/-- The `/track/pixel/<tracking_id>` route (tracking_server.py lines 84-106):
400 on an invalid identifier before any store access; otherwise the store is
updated and the pixel is served (500 only when the pixel file itself is
missing, modeled by `pixelOk`). -/
def track_open (pixelOk : Bool) (id : String) (ip ua : Option String)
    (now : String) (fs : FS) : Response × FS :=
  if is_valid_tracking_id id then
    let fs' := update_tracking_data id .opened ip ua none now fs
    (if pixelOk then .pixel else .serverError, fs')
  else (.badRequest, fs)

/-- The `/track/click/<tracking_id>` route (tracking_server.py lines 109-135):
400 on an invalid identifier before any store access; otherwise the URL is
resolved, the store is updated with the resolved URL, and a redirect to it is
returned. -/
def track_click (id : String) (p : Option String) (ip ua : Option String)
    (now : String) (fs : FS) : Response × FS :=
  if is_valid_tracking_id id then
    let url := resolved_click_url p
    let fs' := update_tracking_data id .clicked ip ua (some url) now fs
    (.redirect url, fs')
  else (.badRequest, fs)

/-- The sleep schedule of `run_campaign` (Email_Campaign_Automation.py lines
236-287). For lead `i` (0-based) of `total`: a lead without an email is
skipped entirely (`continue`, lines 238-241, so neither sleep runs); otherwise
the inter-email sleep (`random.randint(delay_min, delay_max)`, lines 278-281)
runs when `i < total - 1`, and the batch-break sleep
(`random.randint(delay_max * 2, delay_max * 3)`, lines 284-287) runs when
`(i + 1) % batch_size == 0 and i < total - 1`. Durations are random and
external; the model records which sleeps are triggered. -/
def campaign_sleeps (batch_size total : ℕ) (hasEmail : ℕ → Bool) :
    List (ℕ × Bool × Bool) :=
  (List.range total).map fun i =>
    if hasEmail i then
      (i, decide (i < total - 1),
        decide ((i + 1) % batch_size = 0) && decide (i < total - 1))
    else (i, false, false)

/-- The 0-based lead indices after which the batch-break sleep is triggered. -/
def batch_break_indices (batch_size total : ℕ) (hasEmail : ℕ → Bool) : List ℕ :=
  (campaign_sleeps batch_size total hasEmail).filterMap fun t =>
    if t.2.2 then some t.1 else none

/-- The `opened` flag of the entry for `id`, `none` when the entry or the key
is absent. -/
def getOpened (s : Store) (id : String) : Option Bool :=
  (findEntry s id).bind RecipientEntry.opened

/-- The `clicked` flag of the entry for `id`, `none` when the entry or the key
is absent. -/
def getClicked (s : Store) (id : String) : Option Bool :=
  (findEntry s id).bind RecipientEntry.clicked

/-- The length of the entry's `events` list, 0 when the entry is absent. -/
def eventsLen (s : Store) (id : String) : ℕ :=
  ((findEntry s id).map fun e => e.events.length).getD 0

/-- Client metadata of one pixel request: source ip, user agent, and the
ingestion timestamp. -/
abbrev Meta := Option String × Option String × String

/-- A sequence of `recordOpen` ingestions for the same identifier, applied to
a store in arrival order. -/
def openFold (s : Store) (id : String) (ms : List Meta) : Store :=
  ms.foldl (fun st m => update_store id .opened m.1 m.2.1 none m.2.2 st) s

/-- One ingestion call: identifier, action, client metadata, optional click
URL, and ingestion timestamp. -/
structure Call where
  id : String
  act : Action
  ip : Option String
  ua : Option String
  url : Option String
  now : String
deriving DecidableEq, Repr

/-- Apply a sequence of ingestion calls to a single decoded store. -/
def applyCallsStore (cs : List Call) (s : Store) : Store :=
  cs.foldl (fun st c => update_store c.id c.act c.ip c.ua c.url c.now st) s

/-- Apply a sequence of ingestion calls through `update_tracking_data`; since
every load-modify-save cycle runs under the process-wide `file_lock`
(tracking_server.py lines 36, 190), any interleaving of concurrent requests
executes as some sequential order of whole cycles, i.e. as such a fold. -/
def applyCallsFS (cs : List Call) (fs : FS) : FS :=
  cs.foldl (fun f c => update_tracking_data c.id c.act c.ip c.ua c.url c.now f) fs

/-- Replace possibly-missing `opened`/`clicked` keys by their explicit
`data.get(..., False)` defaults. -/
def normalizeEntry (e : RecipientEntry) : RecipientEntry :=
  { e with opened := some (e.opened.getD false),
           clicked := some (e.clicked.getD false) }

/-- Normalize every entry of a store. -/
def normalizeStore (s : Store) : Store :=
  s.map fun q => (q.1, normalizeEntry q.2)

/-- A three-recipient store with exactly one opened entry, as left by one
campaign seed plus one recorded open. -/
def demo_store : Store :=
  [("c1_a", { opened := some true, clicked := some false }),
   ("c1_b", { opened := some false, clicked := some false }),
   ("c1_c", { opened := some false, clicked := some false })]

theorem findEntry_setEntry_self (s : Store) (id : String) (e : RecipientEntry) :
    findEntry (setEntry s id e) id = some e := by
  induction s with
  | nil => simp [setEntry, findEntry]
  | cons kv rest ih =>
    obtain ⟨k, v⟩ := kv
    by_cases h : k = id
    · simp [setEntry, findEntry, h]
    · simp [setEntry, findEntry, h, ih]

theorem findEntry_setEntry_ne (s : Store) (id id' : String) (e : RecipientEntry)
    (h : id' ≠ id) : findEntry (setEntry s id e) id' = findEntry s id' := by
  induction s with
  | nil =>
    simp only [setEntry, findEntry]
    rw [if_neg (fun hx : id = id' => h hx.symm)]
  | cons kv rest ih =>
    obtain ⟨k, v⟩ := kv
    simp only [setEntry, findEntry]
    by_cases hk : k = id
    · rw [if_pos hk]
      simp only [findEntry]
      have hne : ¬ k = id' := fun hx => h (hx.symm.trans hk)
      rw [if_neg hne, if_neg hne]
    · rw [if_neg hk]
      simp only [findEntry]
      by_cases hk' : k = id'
      · rw [if_pos hk', if_pos hk']
      · rw [if_neg hk', if_neg hk', ih]

theorem setEntry_length (s : Store) (id : String) (e : RecipientEntry) :
    (setEntry s id e).length
      = if (findEntry s id).isSome then s.length else s.length + 1 := by
  induction s with
  | nil => simp [setEntry, findEntry]
  | cons kv rest ih =>
    obtain ⟨k, v⟩ := kv
    by_cases h : k = id
    · simp [setEntry, findEntry, h]
    · simp [setEntry, findEntry, h, ih]
      by_cases h' : (findEntry rest id).isSome <;> simp [h']

theorem getOpened_update_store_opened (s : Store) (id : String)
    (ip ua url : Option String) (now : String) :
    getOpened (update_store id .opened ip ua url now s) id = some true := by
  unfold getOpened update_store
  simp [findEntry_setEntry_self]

theorem getClicked_update_store_clicked (s : Store) (id : String)
    (ip ua url : Option String) (now : String) :
    getClicked (update_store id .clicked ip ua url now s) id = some true := by
  unfold getClicked update_store
  simp [findEntry_setEntry_self]

theorem getOpened_update_store_mono (s : Store) (id id' : String) (a : Action)
    (ip ua url : Option String) (now : String)
    (h : getOpened s id' = some true) :
    getOpened (update_store id a ip ua url now s) id' = some true := by
  by_cases hid : id' = id
  · subst hid
    unfold getOpened at h
    cases he : findEntry s id' with
    | none => rw [he] at h; simp at h
    | some e =>
      rw [he] at h
      simp at h
      unfold getOpened update_store
      rw [he]
      simp [findEntry_setEntry_self]
      cases a <;> simp [h]
  · unfold getOpened update_store
    rw [findEntry_setEntry_ne _ _ _ _ hid]
    exact h

theorem getClicked_update_store_mono (s : Store) (id id' : String) (a : Action)
    (ip ua url : Option String) (now : String)
    (h : getClicked s id' = some true) :
    getClicked (update_store id a ip ua url now s) id' = some true := by
  by_cases hid : id' = id
  · subst hid
    unfold getClicked at h
    cases he : findEntry s id' with
    | none => rw [he] at h; simp at h
    | some e =>
      rw [he] at h
      simp at h
      unfold getClicked update_store
      rw [he]
      simp [findEntry_setEntry_self]
      cases a <;> simp [h]
  · unfold getClicked update_store
    rw [findEntry_setEntry_ne _ _ _ _ hid]
    exact h

theorem eventsLen_update_store_self (s : Store) (id : String) (a : Action)
    (ip ua url : Option String) (now : String) :
    eventsLen (update_store id a ip ua url now s) id = eventsLen s id + 1 := by
  unfold eventsLen update_store
  cases he : findEntry s id with
  | none => simp [he, findEntry_setEntry_self, shell_entry]
  | some e => simp [he, findEntry_setEntry_self]

theorem findEntry_update_store_isSome (s : Store) (id : String) (a : Action)
    (ip ua url : Option String) (now : String) :
    (findEntry (update_store id a ip ua url now s) id).isSome = true := by
  unfold update_store
  simp [findEntry_setEntry_self]

theorem findEntry_update_store_mono (s : Store) (id id' : String) (a : Action)
    (ip ua url : Option String) (now : String)
    (h : (findEntry s id').isSome = true) :
    (findEntry (update_store id a ip ua url now s) id').isSome = true := by
  by_cases hid : id' = id
  · subst hid
    exact findEntry_update_store_isSome ..
  · unfold update_store
    rw [findEntry_setEntry_ne _ _ _ _ hid]
    exact h

theorem getOpened_openFold_pres (s : Store) (id : String) (ms : List Meta)
    (h : getOpened s id = some true) :
    getOpened (openFold s id ms) id = some true := by
  induction ms generalizing s with
  | nil => exact h
  | cons m ms ih =>
    simp only [openFold, List.foldl_cons] at *
    exact ih _ (getOpened_update_store_mono _ _ _ _ _ _ _ _ h)

theorem getOpened_openFold_ne_nil (s : Store) (id : String) (ms : List Meta)
    (h : ms ≠ []) : getOpened (openFold s id ms) id = some true := by
  cases ms with
  | nil => exact absurd rfl h
  | cons m ms =>
    simp only [openFold, List.foldl_cons]
    exact getOpened_openFold_pres _ _ _ (getOpened_update_store_opened ..)

theorem eventsLen_openFold (s : Store) (id : String) (ms : List Meta) :
    eventsLen (openFold s id ms) id = eventsLen s id + ms.length := by
  induction ms generalizing s with
  | nil => simp [openFold]
  | cons m ms ih =>
    simp only [openFold, List.foldl_cons] at *
    rw [ih, eventsLen_update_store_self]
    simp only [List.length_cons]
    omega

/-- C2: along any sequence of `recordOpen` ingestions for one identifier,
starting from any decoded store, the entry's `opened` flag is `true` after the
first call and after every further call; the entry's `events` list grows by
exactly one element per call; and no single ingestion (open or click, for any
identifier) ever resets a `true` `opened` or `clicked` flag of any entry. -/
theorem claim_C2_open_monotone :
    (∀ (s : Store) (id : String) (ms : List Meta) (k : ℕ),
        1 ≤ k → k ≤ ms.length →
        getOpened (openFold s id (ms.take k)) id = some true)
    ∧ (∀ (s : Store) (id : String) (ms : List Meta),
        eventsLen (openFold s id ms) id = eventsLen s id + ms.length)
    ∧ (∀ (s : Store) (id id' : String) (a : Action) (ip ua url : Option String)
        (now : String),
        (getOpened s id' = some true →
          getOpened (update_store id a ip ua url now s) id' = some true)
        ∧ (getClicked s id' = some true →
          getClicked (update_store id a ip ua url now s) id' = some true)) := by
  refine ⟨?_, eventsLen_openFold, ?_⟩
  · intro s id ms k hk1 hk2
    apply getOpened_openFold_ne_nil
    cases ms with
    | nil => simp at hk2; omega
    | cons m ms =>
      cases k with
      | zero => omega
      | succ k => simp
  · intro s id id' a ip ua url now
    exact ⟨getOpened_update_store_mono s id id' a ip ua url now,
           getClicked_update_store_mono s id id' a ip ua url now⟩

/-- Concrete instantiation of the C2 theorem: one open on an empty store sets
the flag; two opens append exactly two events; an update for another
identifier preserves a `true` flag. -/
theorem claim_C2_witness :
    getOpened (openFold [] "c1_r1" ([((some "ip", some "ua", "t1"))].take 1)) "c1_r1"
      = some true
    ∧ eventsLen (openFold [] "c1_r1"
        [(some "ip", some "ua", "t1"), (none, none, "t2")]) "c1_r1"
      = eventsLen ([] : Store) "c1_r1" + 2
    ∧ (getOpened [("c1_a", { opened := some true })] "c1_a" = some true →
        getOpened (update_store "c1_b" .clicked none none none "t3"
          [("c1_a", { opened := some true })]) "c1_a" = some true) :=
  ⟨claim_C2_open_monotone.1 [] "c1_r1" [(some "ip", some "ua", "t1")] 1
      (by decide) (by decide),
   claim_C2_open_monotone.2.1 [] "c1_r1"
      [(some "ip", some "ua", "t1"), (none, none, "t2")],
   (claim_C2_open_monotone.2.2 [("c1_a", { opened := some true })] "c1_b" "c1_a"
      .clicked none none none "t3").1⟩

/-- C1 (code-bug evidence): `is_valid_tracking_id` rejects the very identifier
that `_generate_tracking_id` produces for campaign `20250101000000`, lead `7`
and nonce `a1b2c3d4` (three alphanumeric segments, two underscores), while it
accepts a two-segment identifier with a single underscore — the regex
`^[a-zA-Z0-9]+_[a-zA-Z0-9]+$` allows exactly one underscore, contradicting the
specified three-segment format and rejecting every generated identifier. -/
theorem claim_C1_validator_rejects_generated_id :
    is_valid_tracking_id (generate_tracking_id "20250101000000" "7" "a1b2c3d4") = false
    ∧ is_valid_tracking_id "20250101000000_7" = true := by
  constructor
  · rfl
  · rfl

theorem splitU_ne_nil : ∀ l : List Char, splitU l ≠ [] := by
  intro l
  induction l with
  | nil => simp [splitU]
  | cons c cs ih =>
    simp only [splitU]
    rcases hs : splitU cs with _ | ⟨seg, rest⟩
    · exact absurd hs ih
    · by_cases hc : c = '_' <;> simp [hc]

theorem splitU_append (l rest : List Char) (h : '_' ∉ l) :
    splitU (l ++ '_' :: rest) = l :: splitU rest := by
  induction l with
  | nil =>
    simp only [List.nil_append, splitU]
    rcases hs : splitU rest with _ | ⟨seg, r⟩
    · exact absurd hs (splitU_ne_nil rest)
    · simp
  | cons c cs ih =>
    have hc : ¬ c = '_' := fun hx => h (by rw [hx]; exact List.mem_cons_self _ _)
    have hcs : '_' ∉ cs := fun hm => h (List.mem_cons_of_mem _ hm)
    show splitU (c :: (cs ++ '_' :: rest)) = (c :: cs) :: splitU rest
    simp only [splitU, ih hcs]
    rw [if_neg hc]

/-- C3: round-trip routing — for every campaign id and recipient id free of
the underscore separator, parsing the generated identifier by taking its first
underscore-delimited segment recovers the campaign id. -/
theorem claim_C3_roundtrip_routing (c r n : String)
    (hc : '_' ∉ c.toList) (_hr : '_' ∉ r.toList) :
    parse_campaign_id (generate_tracking_id c r n) = c := by
  unfold parse_campaign_id generate_tracking_id
  have hlist : (c ++ "_" ++ r ++ "_" ++ n).toList
      = c.toList ++ '_' :: (r.toList ++ '_' :: n.toList) := by
    simp only [String.toList, String.data_append]
    show c.data ++ ('_' :: List.nil) ++ r.data ++ ('_' :: List.nil) ++ n.data
        = c.data ++ '_' :: (r.data ++ '_' :: n.data)
    simp [List.append_assoc]
  rw [hlist, splitU_append _ _ hc]
  rfl

/-- Concrete instantiation of the C3 theorem at campaign `20250101000000`,
recipient `7`, nonce `deadbeef`. -/
theorem claim_C3_witness :
    parse_campaign_id (generate_tracking_id "20250101000000" "7" "deadbeef")
      = "20250101000000" :=
  claim_C3_roundtrip_routing "20250101000000" "7" "deadbeef"
    (by decide) (by decide)

/-- C6: a pixel request whose identifier fails validation — such as
`../etc/passwd` — is answered with the 400 client-error response before any
store access: the whole tracking-data directory is returned unchanged, so
there is no store mutation and no file-system side effect. -/
theorem claim_C6_invalid_id_rejected :
    is_valid_tracking_id "../etc/passwd" = false
    ∧ ∀ (pixelOk : Bool) (id : String) (ip ua : Option String) (now : String)
        (fs : FS),
        is_valid_tracking_id id = false →
        track_open pixelOk id ip ua now fs = (.badRequest, fs) := by
  constructor
  · rfl
  · intro pixelOk id ip ua now fs h
    simp [track_open, h]

/-- Concrete instantiation of the C6 theorem at the path-traversal input. -/
theorem claim_C6_witness :
    track_open true "../etc/passwd" none none "t0" (fun _ => FileContent.absent)
      = (.badRequest, fun _ => FileContent.absent) :=
  claim_C6_invalid_id_rejected.2 true "../etc/passwd" none none "t0"
    (fun _ => FileContent.absent) (by decide)

/-- C7: on a click request with a valid identifier, an absent or invalid
`url` parameter is replaced by the configured default redirect URL; the
response is always a redirect to the resolved URL, that resolved URL always
passes URL validation, and a supplied valid URL is kept as-is. -/
theorem claim_C7_click_always_redirects (id : String) (p : Option String)
    (ip ua : Option String) (now : String) (fs : FS)
    (hv : is_valid_tracking_id id = true) :
    (track_click id p ip ua now fs).1 = .redirect (resolved_click_url p)
    ∧ is_valid_url (resolved_click_url p) = true
    ∧ (p = none → resolved_click_url p = DEFAULT_REDIRECT_URL)
    ∧ (∀ u, p = some u → is_valid_url u = false →
        resolved_click_url p = DEFAULT_REDIRECT_URL)
    ∧ (∀ u, p = some u → is_valid_url u = true → resolved_click_url p = u) := by
  have hdef : is_valid_url DEFAULT_REDIRECT_URL = true := by rfl
  refine ⟨?_, ?_, ?_, ?_, ?_⟩
  · simp [track_click, hv]
  · unfold resolved_click_url
    by_cases hu : is_valid_url (p.getD DEFAULT_REDIRECT_URL)
    · rw [if_pos hu]; exact hu
    · rw [if_neg hu]; exact hdef
  · intro hp
    simp [resolved_click_url, hp, hdef]
  · intro u hp hu
    simp [resolved_click_url, hp, hu, hdef]
  · intro u hp hu
    simp [resolved_click_url, hp, hu]

/-- Concrete instantiation of the C7 theorem: a click with an invalid URL
parameter redirects to the default URL. -/
theorem claim_C7_witness :
    (track_click "c1_r1" (some "notaurl") none none "t0"
        (fun _ => FileContent.absent)).1
      = .redirect (resolved_click_url (some "notaurl"))
    ∧ is_valid_url (resolved_click_url (some "notaurl")) = true
    ∧ ((some "notaurl" : Option String) = none →
        resolved_click_url (some "notaurl") = DEFAULT_REDIRECT_URL)
    ∧ (∀ u, (some "notaurl" : Option String) = some u → is_valid_url u = false →
        resolved_click_url (some "notaurl") = DEFAULT_REDIRECT_URL)
    ∧ (∀ u, (some "notaurl" : Option String) = some u → is_valid_url u = true →
        resolved_click_url (some "notaurl") = u) :=
  claim_C7_click_always_redirects "c1_r1" (some "notaurl") none none "t0"
    (fun _ => FileContent.absent) (by decide)

theorem findEntry_applyCallsStore_pres (cs : List Call) (s : Store) (id : String)
    (h : (findEntry s id).isSome = true) :
    (findEntry (applyCallsStore cs s) id).isSome = true := by
  induction cs generalizing s with
  | nil => exact h
  | cons c cs ih =>
    simp only [applyCallsStore, List.foldl_cons] at *
    exact ih _ (findEntry_update_store_mono _ _ _ _ _ _ _ _ h)

theorem findEntry_applyCallsStore_mem (cs : List Call) (s : Store) (id : String)
    (h : id ∈ cs.map Call.id) :
    (findEntry (applyCallsStore cs s) id).isSome = true := by
  induction cs generalizing s with
  | nil => simp at h
  | cons c cs ih =>
    simp only [List.map_cons, List.mem_cons] at h
    simp only [applyCallsStore, List.foldl_cons]
    rcases h with h | h
    · subst h
      exact findEntry_applyCallsStore_pres _ _ _ (findEntry_update_store_isSome ..)
    · exact ih _ h

theorem applyCallsFS_good (cs : List Call) (fs : FS) (cid : String) (s : Store)
    (hf : fs cid = FileContent.good s)
    (hr : ∀ c ∈ cs, parse_campaign_id c.id = cid) :
    applyCallsFS cs fs cid = FileContent.good (applyCallsStore cs s) := by
  induction cs generalizing fs s with
  | nil => simpa [applyCallsFS, applyCallsStore] using hf
  | cons c cs ih =>
    have hc : parse_campaign_id c.id = cid := hr c (List.mem_cons_self _ _)
    have hstep : update_tracking_data c.id c.act c.ip c.ua c.url c.now fs cid
        = FileContent.good (update_store c.id c.act c.ip c.ua c.url c.now s) := by
      simp only [update_tracking_data, hc, hf, update_file, Function.update_same]
    simp only [applyCallsFS, List.foldl_cons] at *
    exact ih _ _ hstep (fun c' h' => hr c' (List.mem_cons_of_mem _ h'))

/-- C4: since every load-modify-save cycle of `update_tracking_data` runs as a
whole under the process-wide `file_lock`, any interleaving of N concurrent
ingestion calls executes as some sequential order of whole cycles; for every
such order applied to a campaign file holding a decoded store, and every
identifier occurring among the calls routed to that campaign, the final file
content is the sequential fold of the per-call mutations and contains an entry
for that identifier — no update is lost. -/
theorem claim_C4_no_lost_updates (cs : List Call) (fs : FS) (cid : String)
    (s : Store) (id : String)
    (hf : fs cid = FileContent.good s)
    (hr : ∀ c ∈ cs, parse_campaign_id c.id = cid)
    (hm : id ∈ cs.map Call.id) :
    applyCallsFS cs fs cid = FileContent.good (applyCallsStore cs s)
    ∧ (findEntry (applyCallsStore cs s) id).isSome = true :=
  ⟨applyCallsFS_good cs fs cid s hf hr,
   findEntry_applyCallsStore_mem cs s id hm⟩

/-- Concrete instantiation of the C4 theorem: two calls with distinct
identifiers of the same campaign, applied to an initially empty store. -/
theorem claim_C4_witness :
    applyCallsFS
        [⟨"c1_r1", .opened, none, none, none, "t1"⟩,
         ⟨"c1_r2", .clicked, none, none, some "https://www.example.com", "t2"⟩]
        (fun _ => FileContent.good []) "c1"
      = FileContent.good (applyCallsStore
          [⟨"c1_r1", .opened, none, none, none, "t1"⟩,
           ⟨"c1_r2", .clicked, none, none, some "https://www.example.com", "t2"⟩] [])
    ∧ (findEntry (applyCallsStore
          [⟨"c1_r1", .opened, none, none, none, "t1"⟩,
           ⟨"c1_r2", .clicked, none, none, some "https://www.example.com", "t2"⟩] [])
        "c1_r2").isSome = true :=
  claim_C4_no_lost_updates
    [⟨"c1_r1", .opened, none, none, none, "t1"⟩,
     ⟨"c1_r2", .clicked, none, none, some "https://www.example.com", "t2"⟩]
    (fun _ => FileContent.good []) "c1" [] "c1_r2" rfl (by decide) (by decide)

/-- C5 counterexample: on a store of three recipients of which exactly one has
opened, `campaign_stats` reports an open rate of 33.33 (the value rounded to
two decimal places), which is not `totalOpens / totalRecipients * 100 = 100/3`
— so the claimed unrounded equation fails on the code. -/
theorem claim_C5_counterexample :
    (computeStats "c1" demo_store).open_rate
      ≠ ((computeStats "c1" demo_store).total_opens : ℚ)
          / ((computeStats "c1" demo_store).total_recipients : ℚ) * 100 := by
  have hround : roundHalfEven ((10000 : ℚ) / 3) = 3333 := by
    have hf : ⌊(10000 : ℚ) / 3⌋ = 3333 := by
      rw [Int.floor_eq_iff]
      norm_num
    unfold roundHalfEven
    rw [hf]
    norm_num
  norm_num [computeStats, demo_store, round2, hround]

/-- C5 (amended): `computeStats` returns `totalRecipients` = number of
entries, `totalOpens` = number of entries with `opened` true, `totalClicks` =
number of entries with `clicked` true, `openRate` and `clickRate` =
`totalOpens / totalRecipients * 100` resp. `totalClicks / totalRecipients * 100`
rounded to two decimal places (0 when `totalRecipients` is 0), and
`clickToOpenRate` = `totalClicks / totalOpens * 100` rounded to two decimal
places (0 when `totalOpens` is 0); on a store with zero recipients all rates
are 0 and no division error occurs. -/
theorem claim_C5_stats_rounded (cid : String) (s : Store) :
    (computeStats cid s).total_recipients = s.length
    ∧ (computeStats cid s).total_opens
        = ((s.map Prod.snd).filter fun e => e.opened.getD false).length
    ∧ (computeStats cid s).total_clicks
        = ((s.map Prod.snd).filter fun e => e.clicked.getD false).length
    ∧ (computeStats cid s).open_rate
        = (if s.length = 0 then 0 else
            round2 (((computeStats cid s).total_opens : ℚ) / (s.length : ℚ) * 100))
    ∧ (computeStats cid s).click_rate
        = (if s.length = 0 then 0 else
            round2 (((computeStats cid s).total_clicks : ℚ) / (s.length : ℚ) * 100))
    ∧ (computeStats cid s).click_to_open_rate
        = (if (computeStats cid s).total_opens = 0 then 0 else
            round2 (((computeStats cid s).total_clicks : ℚ)
              / ((computeStats cid s).total_opens : ℚ) * 100))
    ∧ (computeStats cid ([] : Store)).open_rate = 0
    ∧ (computeStats cid ([] : Store)).click_rate = 0
    ∧ (computeStats cid ([] : Store)).click_to_open_rate = 0 := by
  refine ⟨rfl, ?_, ?_, ?_, ?_, ?_, rfl, rfl, rfl⟩
  · simp [computeStats, List.countP_eq_length_filter]
  · simp [computeStats, List.countP_eq_length_filter]
  · simp only [computeStats]
    by_cases h : s.length = 0
    · simp [h]
    · simp [h, Nat.pos_of_ne_zero h]
  · simp only [computeStats]
    by_cases h : s.length = 0
    · simp [h]
    · simp [h, Nat.pos_of_ne_zero h]
  · simp only [computeStats]
    by_cases h : List.countP (fun e => e.opened.getD false) (s.map Prod.snd) = 0
    · simp [h]
    · rw [if_pos (Nat.pos_of_ne_zero h), if_neg h]

theorem update_tracking_data_corrupt (id : String) (a : Action)
    (ip ua url : Option String) (now : String) (fs : FS)
    (h : fs (parse_campaign_id id) = FileContent.corrupt) :
    update_tracking_data id a ip ua url now fs = fs := by
  simp only [update_tracking_data, h, update_file]
  rw [← h]
  exact Function.update_eq_self _ _

/-- C8 counterexample: a pixel request with a valid identifier against a
corrupt campaign file is answered with the 200 pixel response, not a server
error — `update_tracking_data` catches the `json.load` failure, logs it, and
drops the event; the corrupt file is left unchanged. -/
theorem claim_C8_counterexample :
    (track_open true "c1_r1" (some "10.0.0.1") (some "UA") "t0"
        (fun _ => FileContent.corrupt)).1 = Response.pixel
    ∧ (track_open true "c1_r1" (some "10.0.0.1") (some "UA") "t0"
        (fun _ => FileContent.corrupt)).1 ≠ Response.serverError
    ∧ (track_open true "c1_r1" (some "10.0.0.1") (some "UA") "t0"
        (fun _ => FileContent.corrupt)).2 "c1" = FileContent.corrupt := by
  refine ⟨rfl, ?_, rfl⟩
  decide

/-- C8 (amended): if the backing campaign file is corrupt or unparseable, the
`json.load` failure is caught inside `update_tracking_data`, which logs and
returns; the store's prior content is left unchanged and the event is
discarded, and the ingestion path still responds with success (the pixel, or
the redirect) rather than a server error. -/
theorem claim_C8_corrupt_store_preserved (id : String) (p : Option String)
    (ip ua : Option String) (now : String) (fs : FS)
    (hv : is_valid_tracking_id id = true)
    (hc : fs (parse_campaign_id id) = FileContent.corrupt) :
    track_open true id ip ua now fs = (Response.pixel, fs)
    ∧ track_click id p ip ua now fs
        = (Response.redirect (resolved_click_url p), fs) := by
  constructor
  · simp [track_open, hv,
      update_tracking_data_corrupt id .opened ip ua none now fs hc]
  · simp [track_click, hv,
      update_tracking_data_corrupt id .clicked ip ua
        (some (resolved_click_url p)) now fs hc]

/-- Concrete instantiation of the C8 amended theorem on an all-corrupt file
system. -/
theorem claim_C8_witness :
    track_open true "c1_r1" none none "t0" (fun _ => FileContent.corrupt)
      = (Response.pixel, fun _ => FileContent.corrupt)
    ∧ track_click "c1_r1" none none none "t0" (fun _ => FileContent.corrupt)
      = (Response.redirect (resolved_click_url none),
         fun _ => FileContent.corrupt) :=
  claim_C8_corrupt_store_preserved "c1_r1" none none none "t0"
    (fun _ => FileContent.corrupt) (by decide) rfl

/-- C9: with `batchSize = 2`, 5 recipients all holding email addresses, the
batch-break sleep is triggered exactly after the 2nd and the 4th recipients
(0-based indices 1 and 3) and never after the 5th; in general, over any number
of recipients, it fires after the k-th recipient (0-based index i = k - 1)
exactly when k is a multiple of the batch size and that recipient is not the
last one. -/
theorem claim_C9_batch_break_schedule :
    batch_break_indices 2 5 (fun _ => true) = [1, 3]
    ∧ ∀ (batch_size total i : ℕ),
        (i ∈ batch_break_indices batch_size total (fun _ => true)
          ↔ ((i + 1) % batch_size = 0 ∧ i + 1 < total)) := by
  refine ⟨rfl, ?_⟩
  intro bs n i
  have hmap : campaign_sleeps bs n (fun _ => true)
      = (List.range n).map (fun j =>
          (j, decide (j < n - 1),
            decide ((j + 1) % bs = 0) && decide (j < n - 1))) := by
    simp [campaign_sleeps]
  simp only [batch_break_indices, hmap, List.mem_filterMap,
    List.mem_map, List.mem_range]
  constructor
  · rintro ⟨t, ⟨j, hj, rfl⟩, ht⟩
    split at ht
    next hb =>
      obtain rfl : j = i := Option.some.inj ht
      simp only [Bool.and_eq_true, decide_eq_true_eq] at hb
      exact ⟨hb.1, by omega⟩
    next hb => exact absurd ht (by simp)
  · rintro ⟨h1, h2⟩
    have hb : (decide ((i + 1) % bs = 0) && decide (i < n - 1)) = true := by
      simp only [Bool.and_eq_true, decide_eq_true_eq]
      exact ⟨h1, by omega⟩
    refine ⟨(i, decide (i < n - 1),
      decide ((i + 1) % bs = 0) && decide (i < n - 1)), ⟨i, by omega, rfl⟩, ?_⟩
    simp [hb]

theorem update_store_length (s : Store) (id : String) (a : Action)
    (ip ua url : Option String) (now : String) :
    (update_store id a ip ua url now s).length
      = if (findEntry s id).isSome then s.length else s.length + 1 := by
  unfold update_store
  rw [setEntry_length]

/-- C10: `computeStats` is total over shell entries — replacing every entry's
possibly-missing `opened`/`clicked` keys by their explicit `.get(..., False)`
defaults leaves the computed stats unchanged, every entry counts towards
`totalRecipients` whether or not it carries the flag keys, the shell entry
created by event ingestion carries neither flag key, and ingesting an event
for an identifier with no prior record grows the store by exactly one
entry. -/
theorem claim_C10_stats_total_over_shells (cid : String) (s : Store)
    (now : String) :
    computeStats cid (normalizeStore s) = computeStats cid s
    ∧ (computeStats cid s).total_recipients = s.length
    ∧ (shell_entry now).opened = none
    ∧ (shell_entry now).clicked = none
    ∧ (∀ (id : String) (a : Action) (ip ua url : Option String) (now' : String),
        (update_store id a ip ua url now' s).length
          = if (findEntry s id).isSome then s.length else s.length + 1) := by
  refine ⟨?_, rfl, rfl, rfl,
    fun id a ip ua url now' => update_store_length s id a ip ua url now'⟩
  have hlen : (normalizeStore s).length = s.length := by simp [normalizeStore]
  have hmap : (normalizeStore s).map Prod.snd
      = (s.map Prod.snd).map normalizeEntry := by
    simp [normalizeStore, List.map_map, Function.comp]
  have hopen : List.countP (fun e => e.opened.getD false)
        ((s.map Prod.snd).map normalizeEntry)
      = List.countP (fun e => e.opened.getD false) (s.map Prod.snd) := by
    rw [List.countP_map]
    apply List.countP_congr
    intro e _
    simp [normalizeEntry, Function.comp]
  have hclick : List.countP (fun e => e.clicked.getD false)
        ((s.map Prod.snd).map normalizeEntry)
      = List.countP (fun e => e.clicked.getD false) (s.map Prod.snd) := by
    rw [List.countP_map]
    apply List.countP_congr
    intro e _
    simp [normalizeEntry, Function.comp]
  simp only [computeStats, hlen, hmap, hopen, hclick]

end SalesTracking
